import Mathlib

/-!
Verification development for the method-tracing core of the sn-client-utils
repository (`src/Trace.ts`), over a shallow embedding of the code.

Modelling conventions:
* JavaScript object identity and function identity are modelled by natural
  number identifiers into explicit heaps (`World.objects`, `World.funcs`).
* `Date` timestamps are modelled by a logical clock in the world state that
  ticks once per `new Date()`.
* Observer callbacks are opaque: they are identified by a natural number and
  their invocation is recorded as a delivery event in an event trace rather
  than executed.  Publication on a store and the synchronous deliveries it
  performs appear in program order in the trace.
* The body of a traced original method is opaque: its outcome (normal return
  or throw; for the asynchronous path, fulfillment or rejection of the
  awaited pending result) is supplied by a semantics function `sem`.
* JavaScript `Map` is modelled by an insertion-ordered association list with
  `lookupKey` / `setKey` (update-in-place or append, like `Map.set`).
-/

/-- A small universe of JavaScript values, enough for the traced records. -/
inductive JsVal where
  | num (n : Int)
  | str (s : String)
  | boolean (b : Bool)
  | undef
  deriving DecidableEq, Repr

/-- JavaScript truthiness for the values of `JsVal`. -/
def jsTruthy : JsVal → Bool
  | JsVal.num n => n ≠ 0
  | JsVal.str s => s ≠ ""
  | JsVal.boolean b => b
  | JsVal.undef => false

/-- Truthiness of a possibly-absent property value (absent reads as
`undefined`, which is falsy). -/
def markerTruthy : Option JsVal → Bool
  | none => false
  | some v => jsTruthy v

/-- Outcome of running a method body: normal return or a thrown value.  For
the asynchronous path the same type stands for the settlement of the awaited
pending result (fulfillment or rejection). -/
inductive JsOutcome where
  | ok (v : JsVal)
  | thrown (e : JsVal)
  deriving DecidableEq, Repr

/-- Association-list lookup, modelling `Map.get` / property lookup. -/
def lookupKey {κ α : Type} [DecidableEq κ] : List (κ × α) → κ → Option α
  | [], _ => none
  | (k, v) :: rest, key => if k = key then some v else lookupKey rest key

/-- Association-list update-or-append, modelling `Map.set` / property
assignment (insertion order is preserved, as for JavaScript `Map`). -/
def setKey {κ α : Type} [DecidableEq κ] : List (κ × α) → κ → α → List (κ × α)
  | [], key, v => [(key, v)]
  | (k, w) :: rest, key, v =>
      if k = key then (key, v) :: rest else (k, w) :: setKey rest key v

/-- `ITraceMethodCall`: record published on the call store. -/
structure ITraceMethodCall where
  startDateTime : Nat
  arguments : List JsVal
  deriving DecidableEq, Repr

/-- `ITraceMethodFinished`: record published on the finished store. -/
structure ITraceMethodFinished where
  startDateTime : Nat
  arguments : List JsVal
  finishedDateTime : Nat
  returned : JsVal
  deriving DecidableEq, Repr

/-- `ITraceMethodError`: record published on the error store. -/
structure ITraceMethodError where
  startDateTime : Nat
  arguments : List JsVal
  errorDateTime : Nat
  error : JsVal
  deriving DecidableEq, Repr

/-- Modelled from the spec: the `ObservableValue` source file is not under
`src/`, so the Observable Value Store is taken from the specification: it
holds a current value (unset before the first publish) and an
insertion-ordered list of `(subscription id, callback)` pairs; the next
fresh subscription id is tracked so every subscription is independently
removable. -/
structure ObservableValue (α : Type) where
  currentValue : Option α
  listeners : List (Nat × Nat)
  nextSubId : Nat
  deriving DecidableEq, Repr

/-- A fresh, empty Observable Value Store. -/
def ObservableValue.empty {α : Type} : ObservableValue α := ⟨none, [], 0⟩

/-- Modelled from the spec: `subscribe` registers the callback at the end of
the listener sequence under a fresh subscription id and returns that id (the
handle by which exactly this subscription can be removed). -/
def ObservableValue.subscribe {α : Type} (ov : ObservableValue α) (cb : Nat) :
    ObservableValue α × Nat :=
  (⟨ov.currentValue, ov.listeners ++ [(ov.nextSubId, cb)], ov.nextSubId + 1⟩,
   ov.nextSubId)

/-- Modelled from the spec: disposing a subscription removes exactly the
listener with that subscription id; removing an absent id is a no-op. -/
def ObservableValue.unsubscribe {α : Type} (ov : ObservableValue α)
    (subId : Nat) : ObservableValue α :=
  ⟨ov.currentValue, ov.listeners.filter (fun p => p.fst != subId),
   ov.nextSubId⟩

/-- Modelled from the spec: `setValue` (publish) sets the current value and
notifies every currently subscribed callback in subscription order; the
returned list is the ordered list of callbacks to notify. -/
def ObservableValue.setValue {α : Type} (ov : ObservableValue α) (v : α) :
    ObservableValue α × List Nat :=
  (⟨some v, ov.listeners, ov.nextSubId⟩, ov.listeners.map Prod.snd)

/-- What a function object on the heap is: an original method (opaque body,
outcome given by the semantics parameter) or a tracer interceptor closing
over the traced object, the method reference passed at creation and the
`isAsync` flag (source lines 193-195). -/
inductive FuncKind where
  | original (tag : Nat)
  | interceptor (object : Nat) (method : Nat) (isAsync : Bool)
  deriving DecidableEq, Repr

/-- Properties of a function object: its `name` property, its `isTraced`
marker property (absent unless defined via `Object.defineProperty`), and
its behaviour. -/
structure FuncProps where
  fname : String
  isTraced : Option JsVal
  kind : FuncKind
  deriving DecidableEq, Repr

/-- `IMethodMapping`: the original method reference plus the three stores. -/
structure IMethodMapping where
  originalMethod : Nat
  callObservable : ObservableValue ITraceMethodCall
  finishedObservable : ObservableValue ITraceMethodFinished
  errorObservable : ObservableValue ITraceMethodError
  deriving DecidableEq, Repr

/-- `IObjectTrace`: map from method name to its mapping. -/
structure IObjectTrace where
  methodMappings : List (String × IMethodMapping)
  deriving DecidableEq, Repr

/-- The whole mutable state: the function heap, the objects' own method
slots, the tracer registry `Trace.objectTraces`, the next fresh function
identifier, and the logical clock. -/
structure World where
  funcs : List (Nat × FuncProps)
  objects : List (Nat × List (String × Nat))
  objectTraces : List (Nat × IObjectTrace)
  nextFunId : Nat
  clock : Nat
  deriving DecidableEq, Repr

/-- `ITraceMethodOptions`: the argument of `Trace.method`.  Callbacks are
opaque callback identifiers; an omitted callback is `none`; an undefined
`isAsync` reads as `false`. -/
structure ITraceMethodOptions where
  object : Nat
  method : Nat
  onCalled : Option Nat
  onFinished : Option Nat
  onError : Option Nat
  isAsync : Bool
  deriving DecidableEq, Repr

/-- The disposable returned by `Trace.method`: it remembers which mapping it
subscribed to and the subscription ids of the up-to-three subscriptions it
owns (source lines 212-221). -/
structure TraceObserverHandle where
  hobject : Nat
  hname : String
  callSub : Option Nat
  finishedSub : Option Nat
  errorSub : Option Nat
  deriving DecidableEq, Repr

/-- The ordered trace of observable steps of one invocation of a traced
method: publications on the three stores, the synchronous deliveries they
perform, the invocation of the original method, the point where control
returns to the caller of the wrapped method, and (asynchronous path) the
settlement of the interceptor's own returned pending result. -/
inductive Event where
  | pubCall (r : ITraceMethodCall)
  | deliverCall (cb : Nat) (r : ITraceMethodCall)
  | pubFinished (r : ITraceMethodFinished)
  | deliverFinished (cb : Nat) (r : ITraceMethodFinished)
  | pubError (r : ITraceMethodError)
  | deliverError (cb : Nat) (r : ITraceMethodError)
  | invokeOriginal (f : Nat)
  | controlReturn
  | settled
  deriving DecidableEq, Repr

/-- The slot currently installed on object `o` under name `s`. -/
def installedSlot (w : World) (o : Nat) (s : String) : Option Nat :=
  match lookupKey w.objects o with
  | none => none
  | some props => lookupKey props s

namespace Trace

/-- Source lines 186-190: `if (!this.objectTraces.has(options.object)) {
this.objectTraces.set(options.object, { methodMappings: new Map() }); }`. -/
def ensureObjectTrace (w : World) (o : Nat) : World :=
  if (lookupKey w.objectTraces o).isSome then w
  else ⟨w.funcs, w.objects, setKey w.objectTraces o ⟨[]⟩, w.nextFunId, w.clock⟩

/-- Source lines 191-199: read `object[method.name].isTraced` (a `TypeError`,
modelled as `none`, when the slot is absent); when the marker is falsy,
create the interceptor closure, define its `name` to the method's name and
its `isTraced` marker to the method's name (a string!), and install it in
the slot. -/
def ensureWrapped (w : World) (opts : ITraceMethodOptions) (mname : String) :
    Option World :=
  match lookupKey w.objects opts.object with
  | none => none
  | some props =>
    match lookupKey props mname with
    | none => none
    | some slotFun =>
      match lookupKey w.funcs slotFun with
      | none => none
      | some sp =>
        if markerTruthy sp.isTraced then some w
        else some ⟨setKey w.funcs w.nextFunId
              ⟨mname, some (JsVal.str mname),
               FuncKind.interceptor opts.object opts.method opts.isAsync⟩,
            setKey w.objects opts.object (setKey props mname w.nextFunId),
            w.objectTraces, w.nextFunId + 1, w.clock⟩

/-- Source lines 202-210: create the method mapping when absent, capturing
`options.method` as `originalMethod` together with three fresh stores. -/
def ensureMapping (w : World) (opts : ITraceMethodOptions) (mname : String) :
    World :=
  match lookupKey w.objectTraces opts.object with
  | none => w
  | some ot =>
    if (lookupKey ot.methodMappings mname).isSome then w
    else ⟨w.funcs, w.objects,
      setKey w.objectTraces opts.object
        ⟨setKey ot.methodMappings mname
          ⟨opts.method, ObservableValue.empty, ObservableValue.empty,
           ObservableValue.empty⟩⟩,
      w.nextFunId, w.clock⟩

/-- Subscribe an optional callback: `options.onX && store.subscribe(...)`. -/
def subscribeOpt {α : Type} (ov : ObservableValue α) (cb : Option Nat) :
    ObservableValue α × Option Nat :=
  match cb with
  | none => (ov, none)
  | some c => ((ov.subscribe c).1, some (ov.subscribe c).2)

/-- Source lines 211-221: subscribe the supplied callbacks on the mapping's
stores and return the aggregated disposable handle. -/
def subscribeCallbacks (w : World) (opts : ITraceMethodOptions)
    (mname : String) : Option (World × TraceObserverHandle) :=
  match lookupKey w.objectTraces opts.object with
  | none => none
  | some ot =>
    match lookupKey ot.methodMappings mname with
    | none => none
    | some mt =>
      some (⟨w.funcs, w.objects,
        setKey w.objectTraces opts.object
          ⟨setKey ot.methodMappings mname
            ⟨mt.originalMethod,
             (subscribeOpt mt.callObservable opts.onCalled).1,
             (subscribeOpt mt.finishedObservable opts.onFinished).1,
             (subscribeOpt mt.errorObservable opts.onError).1⟩⟩,
        w.nextFunId, w.clock⟩,
       ⟨opts.object, mname,
        (subscribeOpt mt.callObservable opts.onCalled).2,
        (subscribeOpt mt.finishedObservable opts.onFinished).2,
        (subscribeOpt mt.errorObservable opts.onError).2⟩)

/-- `Trace.method` (source lines 184-222): ensure the registry entry, the
interceptor and the mapping, then subscribe the callbacks and return the
observer handle. -/
def method (w : World) (opts : ITraceMethodOptions) :
    Option (World × TraceObserverHandle) :=
  match lookupKey w.funcs opts.method with
  | none => none
  | some mp =>
    match ensureWrapped (ensureObjectTrace w opts.object) opts mp.fname with
    | none => none
    | some w2 => subscribeCallbacks (ensureMapping w2 opts mp.fname) opts mp.fname

/-- `Trace.getMethodTrace` (source lines 118-121): look the mapping up by the
passed method reference's `name`. -/
def getMethodTrace (w : World) (object : Nat) (method : Nat) :
    Option IMethodMapping :=
  match lookupKey w.funcs method with
  | none => none
  | some mp =>
    match lookupKey w.objectTraces object with
    | none => none
    | some ot => lookupKey ot.methodMappings mp.fname

/-- The record built by `traceStart` (source lines 123-131): `new Date()`
reads the current clock. -/
def startRecord (w : World) (args : List JsVal) : ITraceMethodCall :=
  ⟨w.clock, args⟩

/-- The record built by `traceFinished` (source lines 133-141): the second
`new Date()` reads the ticked clock. -/
def finRecord (w : World) (args : List JsVal) (v : JsVal) :
    ITraceMethodFinished :=
  ⟨w.clock, args, w.clock + 1, v⟩

/-- The record built by `traceError` (source lines 143-152). -/
def errRecord (w : World) (args : List JsVal) (e : JsVal) :
    ITraceMethodError :=
  ⟨w.clock, args, w.clock + 1, e⟩

/-- Publication on the call store followed by its synchronous deliveries, in
subscription order. -/
def callEvents (mt : IMethodMapping) (r : ITraceMethodCall) : List Event :=
  Event.pubCall r ::
    (mt.callObservable.setValue r).2.map (fun c => Event.deliverCall c r)

/-- Publication on the finished store followed by its deliveries. -/
def finishedEvents (mt : IMethodMapping) (r : ITraceMethodFinished) :
    List Event :=
  Event.pubFinished r ::
    (mt.finishedObservable.setValue r).2.map
      (fun c => Event.deliverFinished c r)

/-- Publication on the error store followed by its deliveries. -/
def errorEvents (mt : IMethodMapping) (r : ITraceMethodError) : List Event :=
  Event.pubError r ::
    (mt.errorObservable.setValue r).2.map (fun c => Event.deliverError c r)

/-- Write the updated mapping (and the advanced clock) back to the world at
the end of an interception. -/
def writeBack (w : World) (object : Nat) (mname : String)
    (mt : IMethodMapping) (newClock : Nat) : World :=
  match lookupKey w.objectTraces object with
  | none => w
  | some ot =>
    ⟨w.funcs, w.objects,
     setKey w.objectTraces object ⟨setKey ot.methodMappings mname mt⟩,
     w.nextFunId, newClock⟩

/-- `Trace.callMethod` (source lines 154-165), the synchronous interceptor
body: publish the call record, invoke the mapping's `originalMethod`, then
publish the finished record and return the value, or publish the error
record and re-throw.  All of it happens before control returns. -/
def callMethod (sem : Nat → Nat → List JsVal → JsOutcome) (w : World)
    (object : Nat) (method : Nat) (args : List JsVal) :
    Option (World × List Event × JsOutcome) :=
  match lookupKey w.funcs method with
  | none => none
  | some mp =>
    match getMethodTrace w object method with
    | none => none
    | some mt =>
      match sem mt.originalMethod object args with
      | JsOutcome.ok v =>
        some (writeBack w object mp.fname
            ⟨mt.originalMethod,
             (mt.callObservable.setValue (startRecord w args)).1,
             (mt.finishedObservable.setValue (finRecord w args v)).1,
             mt.errorObservable⟩ (w.clock + 2),
          callEvents mt (startRecord w args) ++
            [Event.invokeOriginal mt.originalMethod] ++
            finishedEvents mt (finRecord w args v) ++ [Event.controlReturn],
          JsOutcome.ok v)
      | JsOutcome.thrown e =>
        some (writeBack w object mp.fname
            ⟨mt.originalMethod,
             (mt.callObservable.setValue (startRecord w args)).1,
             mt.finishedObservable,
             (mt.errorObservable.setValue (errRecord w args e)).1⟩
            (w.clock + 2),
          callEvents mt (startRecord w args) ++
            [Event.invokeOriginal mt.originalMethod] ++
            errorEvents mt (errRecord w args e) ++ [Event.controlReturn],
          JsOutcome.thrown e)

/-- `Trace.callMethodAsync` (source lines 167-178), the asynchronous
interceptor body: the call record is published and the original method is
invoked synchronously; the `await` then yields control back to the caller
(who receives the interceptor's pending result); once the original's pending
result settles, the finished or error record is published and the
interceptor's own pending result settles the same way. -/
def callMethodAsync (sem : Nat → Nat → List JsVal → JsOutcome) (w : World)
    (object : Nat) (method : Nat) (args : List JsVal) :
    Option (World × List Event × JsOutcome) :=
  match lookupKey w.funcs method with
  | none => none
  | some mp =>
    match getMethodTrace w object method with
    | none => none
    | some mt =>
      match sem mt.originalMethod object args with
      | JsOutcome.ok v =>
        some (writeBack w object mp.fname
            ⟨mt.originalMethod,
             (mt.callObservable.setValue (startRecord w args)).1,
             (mt.finishedObservable.setValue (finRecord w args v)).1,
             mt.errorObservable⟩ (w.clock + 2),
          callEvents mt (startRecord w args) ++
            [Event.invokeOriginal mt.originalMethod, Event.controlReturn] ++
            finishedEvents mt (finRecord w args v) ++ [Event.settled],
          JsOutcome.ok v)
      | JsOutcome.thrown e =>
        some (writeBack w object mp.fname
            ⟨mt.originalMethod,
             (mt.callObservable.setValue (startRecord w args)).1,
             mt.finishedObservable,
             (mt.errorObservable.setValue (errRecord w args e)).1⟩
            (w.clock + 2),
          callEvents mt (startRecord w args) ++
            [Event.invokeOriginal mt.originalMethod, Event.controlReturn] ++
            errorEvents mt (errRecord w args e) ++ [Event.settled],
          JsOutcome.thrown e)

/-- Invoking `object.name(args)` after tracing: look up the installed slot
and run it: an untouched original runs directly, an interceptor runs
`callMethod` or `callMethodAsync` according to the `isAsync` captured when
the interceptor was created. -/
def invokeTraced (sem : Nat → Nat → List JsVal → JsOutcome) (w : World)
    (object : Nat) (mname : String) (args : List JsVal) :
    Option (World × List Event × JsOutcome) :=
  match installedSlot w object mname with
  | none => none
  | some f =>
    match lookupKey w.funcs f with
    | none => none
    | some fp =>
      match fp.kind with
      | FuncKind.original _ =>
        some (w, [Event.invokeOriginal f, Event.controlReturn],
          sem f object args)
      | FuncKind.interceptor o m false => callMethod sem w o m args
      | FuncKind.interceptor o m true => callMethodAsync sem w o m args

/-- Disposal of the handle returned by `Trace.method` (source lines
218-221): dispose each owned subscription; nothing else changes. -/
def disposeHandle (w : World) (h : TraceObserverHandle) : World :=
  match lookupKey w.objectTraces h.hobject with
  | none => w
  | some ot =>
    match lookupKey ot.methodMappings h.hname with
    | none => w
    | some mt =>
      ⟨w.funcs, w.objects,
       setKey w.objectTraces h.hobject
         ⟨setKey ot.methodMappings h.hname
           ⟨mt.originalMethod,
            (match h.callSub with
             | some s => mt.callObservable.unsubscribe s
             | none => mt.callObservable),
            (match h.finishedSub with
             | some s => mt.finishedObservable.unsubscribe s
             | none => mt.finishedObservable),
            (match h.errorSub with
             | some s => mt.errorObservable.unsubscribe s
             | none => mt.errorObservable)⟩⟩,
       w.nextFunId, w.clock⟩

/-- A sequence of independent `Trace.method` registrations. -/
def traceMany (w : World) :
    List ITraceMethodOptions → Option (World × List TraceObserverHandle)
  | [] => some (w, [])
  | o :: rest =>
    match method w o with
    | none => none
    | some (w1, h) =>
      match traceMany w1 rest with
      | none => none
      | some (w2, hs) => some (w2, h :: hs)

end Trace

/-! ### Canonical tracing scenario

A single object (identifier `0`) carrying a single original method
(identifier `0`) under a name `s`, then traced any number of times.  Each
registration is described by a triple of callback identifiers
`(onCalled, onFinished, onError)`. -/

/-- Heap properties of the original method: named `s`, no `isTraced`
marker. -/
def origProps (s : String) : FuncProps := ⟨s, none, FuncKind.original 0⟩

/-- Heap properties of the interceptor that `Trace.method` installs for the
canonical scenario: `name` defined to `s`, `isTraced` defined to the *name
string* `s` (source line 197), closing over object `0`, method `0` and the
`isAsync` flag of the registration that created it. -/
def interProps (s : String) (b : Bool) : FuncProps :=
  ⟨s, some (JsVal.str s), FuncKind.interceptor 0 0 b⟩

/-- The world before any tracing: the method `0` (named `s`) installed on
object `0`, an empty registry. -/
def startWorld (s : String) : World :=
  ⟨[(0, origProps s)], [(0, [(s, 0)])], [], 1, 0⟩

/-- One registration: all three callbacks supplied, as callback identifiers
`t = (onCalled, onFinished, onError)`. -/
def mkReg (t : Nat × Nat × Nat) (b : Bool) : ITraceMethodOptions :=
  ⟨0, 0, some t.1, some t.2.1, some t.2.2, b⟩

/-- A registration passing an arbitrary method reference `mid` (used for the
re-registration that passes the already-wrapped method). -/
def mkRegM (mid : Nat) (t : Nat × Nat × Nat) (b : Bool) :
    ITraceMethodOptions :=
  ⟨0, mid, some t.1, some t.2.1, some t.2.2, b⟩

/-- Listener list of a store after subscribing the callbacks `l` in order,
with subscription ids counting up from `n`. -/
def subsFrom (n : Nat) : List Nat → List (Nat × Nat)
  | [] => []
  | c :: cs => (n, c) :: subsFrom (n + 1) cs

/-- A store holding the subscriptions of the callbacks `l`, in order. -/
def obsFrom {α : Type} (l : List Nat) : ObservableValue α :=
  ⟨none, subsFrom 0 l, l.length⟩

/-- The method mapping after the registrations `ts`: `originalMethod` is the
method reference `0`, each store carries one subscription per registration in
registration order. -/
def mappingAfter (ts : List (Nat × Nat × Nat)) : IMethodMapping :=
  ⟨0, obsFrom (ts.map (fun t => t.1)), obsFrom (ts.map (fun t => t.2.1)),
   obsFrom (ts.map (fun t => t.2.2))⟩

/-- The world after the registrations `ts` in the canonical scenario: one
interceptor (identifier `1`, created by the first registration with its
`isAsync` flag `b`) installed in the slot, one mapping, stores subscribed in
order. -/
def worldAfter (s : String) (b : Bool) (ts : List (Nat × Nat × Nat)) :
    World :=
  ⟨[(0, origProps s), (1, interProps s b)], [(0, [(s, 1)])],
   [(0, ⟨[(s, mappingAfter ts)]⟩)], 2, 0⟩

/-- The handle returned by the `n`-th registration (counting from `0`) in
the canonical scenario. -/
def mkHandle (s : String) (n : Nat) : TraceObserverHandle :=
  ⟨0, s, some n, some n, some n⟩

/-- The registrations `us`, all with flag `b`. -/
def regsOf (us : List (Nat × Nat × Nat)) (b : Bool) :
    List ITraceMethodOptions :=
  us.map (fun t => mkReg t b)

/-- The handles returned by `k` consecutive registrations starting at
subscription id `n`. -/
def handlesFrom (s : String) : Nat → Nat → List TraceObserverHandle
  | _, 0 => []
  | n, k + 1 => mkHandle s n :: handlesFrom s (n + 1) k

theorem subsFrom_snoc (n : Nat) (l : List Nat) (c : Nat) :
    subsFrom n (l ++ [c]) = subsFrom n l ++ [(n + l.length, c)] := by
  induction l generalizing n with
  | nil => simp [subsFrom]
  | cons a l ih =>
    simp [subsFrom, ih]
    omega

theorem subsFrom_map_snd (n : Nat) (l : List Nat) :
    (subsFrom n l).map Prod.snd = l := by
  induction l generalizing n with
  | nil => simp [subsFrom]
  | cons a l ih => simp [subsFrom, ih]

theorem subsFrom_length (n : Nat) (l : List Nat) :
    (subsFrom n l).length = l.length := by
  induction l generalizing n with
  | nil => simp [subsFrom]
  | cons a l ih => simp [subsFrom, ih]

/-- The first registration on a fresh object: creates the registry entry,
installs the interceptor (function identifier `1`) with the registration's
`isAsync` flag, creates the mapping and subscribes the three callbacks. -/
theorem trace_method_first (s : String) (t : Nat × Nat × Nat) (b : Bool) :
    Trace.method (startWorld s) (mkReg t b) =
      some (worldAfter s b [t], mkHandle s 0) := by
  simp [Trace.method, Trace.ensureObjectTrace, Trace.ensureWrapped,
    Trace.ensureMapping, Trace.subscribeCallbacks, Trace.subscribeOpt,
    startWorld, mkReg, worldAfter, mkHandle, origProps, interProps,
    mappingAfter, obsFrom, subsFrom, lookupKey, setKey, markerTruthy,
    ObservableValue.empty, ObservableValue.subscribe]

/-- Re-registration on an already-traced pair with a nonempty method name:
whatever method reference `mid` is passed (original or the installed
wrapped function — anything whose `name` is `s`) and whatever `isAsync`
flag `b'` is supplied, the call only appends one subscription per store;
the slot, the interceptor (and hence its captured `isAsync` flag `b`), the
heap and the mapping's `originalMethod` are unchanged. -/
theorem trace_method_reuse (s : String) (hs : s ≠ "") (b b' : Bool)
    (ts : List (Nat × Nat × Nat)) (mid : Nat) (mp : FuncProps)
    (hmid : lookupKey (worldAfter s b ts).funcs mid = some mp)
    (hname : mp.fname = s) (t : Nat × Nat × Nat) :
    Trace.method (worldAfter s b ts) (mkRegM mid t b') =
      some (worldAfter s b (ts ++ [t]), mkHandle s ts.length) := by
  unfold Trace.method
  rw [show lookupKey (worldAfter s b ts).funcs (mkRegM mid t b').method
        = some mp from hmid]
  simp only [hname]
  simp [Trace.ensureObjectTrace, Trace.ensureWrapped, Trace.ensureMapping,
    Trace.subscribeCallbacks, Trace.subscribeOpt, worldAfter, mkRegM,
    mkHandle, origProps, interProps, mappingAfter, obsFrom, lookupKey,
    setKey, markerTruthy, jsTruthy, ObservableValue.subscribe, hs,
    subsFrom_snoc, subsFrom_length]

theorem lookup_worldAfter_funcs_zero (s : String) (b : Bool)
    (ts : List (Nat × Nat × Nat)) :
    lookupKey (worldAfter s b ts).funcs 0 = some (origProps s) := by
  simp [worldAfter, lookupKey]

/-- Any number of further registrations on an already-traced pair (nonempty
name): each one reuses the interceptor and the mapping and appends its
subscriptions. -/
theorem traceMany_reuse (s : String) (hs : s ≠ "") (b b' : Bool)
    (us : List (Nat × Nat × Nat)) :
    ∀ ts, Trace.traceMany (worldAfter s b ts) (regsOf us b') =
      some (worldAfter s b (ts ++ us), handlesFrom s ts.length us.length) := by
  induction us with
  | nil => intro ts; simp [regsOf, Trace.traceMany, handlesFrom]
  | cons u us ih =>
    intro ts
    have hstep := trace_method_reuse s hs b b' ts 0 (origProps s)
      (lookup_worldAfter_funcs_zero s b ts) rfl u
    have hreg : mkReg u b' = mkRegM 0 u b' := rfl
    simp only [regsOf, List.map_cons, Trace.traceMany, hreg, hstep]
    have := ih (ts ++ [u])
    simp only [regsOf] at this
    simp only [this, List.append_assoc, List.singleton_append,
      List.length_append, List.length_cons, List.length_nil, handlesFrom]

/-- Recognizer for call-store deliveries. -/
def Event.isDeliverCall : Event → Bool
  | Event.deliverCall _ _ => true
  | _ => false

/-- Recognizer for finished-store deliveries. -/
def Event.isDeliverFinished : Event → Bool
  | Event.deliverFinished _ _ => true
  | _ => false

/-- Recognizer for error-store deliveries. -/
def Event.isDeliverError : Event → Bool
  | Event.deliverError _ _ => true
  | _ => false

/-- The canonical world right after an invocation whose original returned
normally: the call and finished stores now hold their records, the clock
ticked twice. -/
def worldInvokedOk (s : String) (b : Bool) (ts : List (Nat × Nat × Nat))
    (args : List JsVal) (v : JsVal) : World :=
  ⟨[(0, origProps s), (1, interProps s b)], [(0, [(s, 1)])],
   [(0, ⟨[(s, ⟨0,
      ⟨some ⟨0, args⟩, subsFrom 0 (ts.map (fun t => t.1)), ts.length⟩,
      ⟨some ⟨0, args, 1, v⟩, subsFrom 0 (ts.map (fun t => t.2.1)), ts.length⟩,
      ⟨none, subsFrom 0 (ts.map (fun t => t.2.2)), ts.length⟩⟩)]⟩)], 2, 2⟩

/-- The canonical world right after an invocation whose original threw. -/
def worldInvokedThrown (s : String) (b : Bool) (ts : List (Nat × Nat × Nat))
    (args : List JsVal) (e : JsVal) : World :=
  ⟨[(0, origProps s), (1, interProps s b)], [(0, [(s, 1)])],
   [(0, ⟨[(s, ⟨0,
      ⟨some ⟨0, args⟩, subsFrom 0 (ts.map (fun t => t.1)), ts.length⟩,
      ⟨none, subsFrom 0 (ts.map (fun t => t.2.1)), ts.length⟩,
      ⟨some ⟨0, args, 1, e⟩, subsFrom 0 (ts.map (fun t => t.2.2)),
       ts.length⟩⟩)]⟩)], 2, 2⟩

/-- Invoking the traced method once in the canonical world, original method
returning normally: the full event trace, for both the synchronous and the
asynchronous interceptor. -/
theorem invoke_worldAfter_ok (s : String) (b : Bool)
    (ts : List (Nat × Nat × Nat)) (sem : Nat → Nat → List JsVal → JsOutcome)
    (args : List JsVal) (v : JsVal) (hsem : sem 0 0 args = JsOutcome.ok v) :
    Trace.invokeTraced sem (worldAfter s b ts) 0 s args =
      some (worldInvokedOk s b ts args v,
        (Event.pubCall ⟨0, args⟩ ::
          (ts.map (fun t => t.1)).map
            (fun c => Event.deliverCall c ⟨0, args⟩)) ++
        (if b then [Event.invokeOriginal 0, Event.controlReturn]
         else [Event.invokeOriginal 0]) ++
        (Event.pubFinished ⟨0, args, 1, v⟩ ::
          (ts.map (fun t => t.2.1)).map
            (fun c => Event.deliverFinished c ⟨0, args, 1, v⟩)) ++
        (if b then [Event.settled] else [Event.controlReturn]),
        JsOutcome.ok v) := by
  cases b <;>
    simp [Trace.invokeTraced, Trace.callMethod, Trace.callMethodAsync,
      Trace.getMethodTrace, Trace.callEvents, Trace.finishedEvents,
      Trace.startRecord, Trace.finRecord, Trace.writeBack, installedSlot,
      worldAfter, worldInvokedOk, origProps, interProps, mappingAfter,
      obsFrom, lookupKey, setKey, hsem, ObservableValue.setValue,
      subsFrom_map_snd]

/-- Invoking the traced method once in the canonical world, original method
throwing (synchronous path) or its pending result rejecting (asynchronous
path): the full event trace. -/
theorem invoke_worldAfter_thrown (s : String) (b : Bool)
    (ts : List (Nat × Nat × Nat)) (sem : Nat → Nat → List JsVal → JsOutcome)
    (args : List JsVal) (e : JsVal)
    (hsem : sem 0 0 args = JsOutcome.thrown e) :
    Trace.invokeTraced sem (worldAfter s b ts) 0 s args =
      some (worldInvokedThrown s b ts args e,
        (Event.pubCall ⟨0, args⟩ ::
          (ts.map (fun t => t.1)).map
            (fun c => Event.deliverCall c ⟨0, args⟩)) ++
        (if b then [Event.invokeOriginal 0, Event.controlReturn]
         else [Event.invokeOriginal 0]) ++
        (Event.pubError ⟨0, args, 1, e⟩ ::
          (ts.map (fun t => t.2.2)).map
            (fun c => Event.deliverError c ⟨0, args, 1, e⟩)) ++
        (if b then [Event.settled] else [Event.controlReturn]),
        JsOutcome.thrown e) := by
  cases b <;>
    simp [Trace.invokeTraced, Trace.callMethod, Trace.callMethodAsync,
      Trace.getMethodTrace, Trace.callEvents, Trace.errorEvents,
      Trace.startRecord, Trace.errRecord, Trace.writeBack, installedSlot,
      worldAfter, worldInvokedThrown, origProps, interProps, mappingAfter,
      obsFrom, lookupKey, setKey, hsem, ObservableValue.setValue,
      subsFrom_map_snd]

theorem countP_map_true {β : Type} (p : Event → Bool) (f : β → Event)
    (l : List β) (h : ∀ x, p (f x) = true) :
    (l.map f).countP p = l.length := by
  induction l with
  | nil => simp
  | cons a l ih => simp [List.countP_cons, h, ih]

theorem countP_map_false {β : Type} (p : Event → Bool) (f : β → Event)
    (l : List β) (h : ∀ x, p (f x) = false) :
    (l.map f).countP p = 0 := by
  induction l with
  | nil => simp
  | cons a l ih => simp [List.countP_cons, h, ih]

/-- C1, amended to method names that are nonempty strings (the `isTraced`
marker is set to the *name string*, so it is truthy exactly when the name is
nonempty): registering `Trace.method` `N = us.length + 1` times for the same
(object, method-name) pair installs exactly one interceptor (the slot holds
function `1`, created by the first registration; exactly one fresh function
identifier is consumed), and one invocation of the method delivers exactly
`N` events of each triggered requested event type, one per registered
observer. -/
theorem C1_idempotent_wrapping_amended
    (s : String) (hs : s ≠ "") (b : Bool) (t : Nat × Nat × Nat)
    (us : List (Nat × Nat × Nat)) :
    Trace.traceMany (startWorld s) (mkReg t b :: regsOf us b) =
      some (worldAfter s b (t :: us), handlesFrom s 0 (us.length + 1))
    ∧ installedSlot (worldAfter s b (t :: us)) 0 s = some 1
    ∧ (worldAfter s b (t :: us)).nextFunId = (startWorld s).nextFunId + 1
    ∧ (∀ sem args v, sem 0 0 args = JsOutcome.ok v →
        ∃ w' evs,
          Trace.invokeTraced sem (worldAfter s b (t :: us)) 0 s args
            = some (w', evs, JsOutcome.ok v)
          ∧ evs.countP Event.isDeliverCall = us.length + 1
          ∧ evs.countP Event.isDeliverFinished = us.length + 1
          ∧ evs.countP Event.isDeliverError = 0)
    ∧ (∀ sem args e, sem 0 0 args = JsOutcome.thrown e →
        ∃ w' evs,
          Trace.invokeTraced sem (worldAfter s b (t :: us)) 0 s args
            = some (w', evs, JsOutcome.thrown e)
          ∧ evs.countP Event.isDeliverCall = us.length + 1
          ∧ evs.countP Event.isDeliverError = us.length + 1
          ∧ evs.countP Event.isDeliverFinished = 0) := by
  refine ⟨?_, ?_, ?_, ?_, ?_⟩
  · have h1 := trace_method_first s t b
    have h2 := traceMany_reuse s hs b b us [t]
    simp [Trace.traceMany, h1, h2, handlesFrom]
  · simp [installedSlot, worldAfter, lookupKey]
  · simp [worldAfter, startWorld]
  · intro sem args v hsem
    refine ⟨_, _, invoke_worldAfter_ok s b (t :: us) sem args v hsem,
      ?_, ?_, ?_⟩ <;>
      cases b <;>
      simp [List.countP_append, List.countP_cons, Function.comp_def,
        List.countP_true, List.countP_false, Event.isDeliverCall,
        Event.isDeliverFinished, Event.isDeliverError]
  · intro sem args e hsem
    refine ⟨_, _, invoke_worldAfter_thrown s b (t :: us) sem args e hsem,
      ?_, ?_, ?_⟩ <;>
      cases b <;>
      simp [List.countP_append, List.countP_cons, Function.comp_def,
        List.countP_true, List.countP_false, Event.isDeliverCall,
        Event.isDeliverFinished, Event.isDeliverError]

/-- A concrete method body: always returns `6` (the sum of `[1, 2, 3]`). -/
def sumSem : Nat → Nat → List JsVal → JsOutcome :=
  fun _ _ _ => JsOutcome.ok (JsVal.num 6)

/-- A concrete method body: always throws the string `"message"`. -/
def throwSem : Nat → Nat → List JsVal → JsOutcome :=
  fun _ _ _ => JsOutcome.thrown (JsVal.str "message")

/-- Witness for C1 at a concrete input: method name `"add"`, two
registrations, two deliveries of each triggered event type on one call. -/
theorem C1_idempotent_wrapping_amended_witness :
    Trace.traceMany (startWorld "add")
        (mkReg (1, 2, 3) false :: regsOf [(4, 5, 6)] false)
      = some (worldAfter "add" false [(1, 2, 3), (4, 5, 6)],
              handlesFrom "add" 0 2)
    ∧ ∃ w' evs,
        Trace.invokeTraced sumSem (worldAfter "add" false [(1, 2, 3), (4, 5, 6)])
            0 "add" [JsVal.num 1, JsVal.num 2, JsVal.num 3]
          = some (w', evs, JsOutcome.ok (JsVal.num 6))
        ∧ evs.countP Event.isDeliverCall = 2
        ∧ evs.countP Event.isDeliverFinished = 2
        ∧ evs.countP Event.isDeliverError = 0 := by
  have h := C1_idempotent_wrapping_amended "add" (by decide) false (1, 2, 3)
    [(4, 5, 6)]
  exact ⟨h.1, h.2.2.2.1 sumSem [JsVal.num 1, JsVal.num 2, JsVal.num 3]
    (JsVal.num 6) rfl⟩

/-- Counterexample to C1 as stated: for the empty method name the `isTraced`
marker is the empty string, which is falsy, so a second `Trace.method` call
for the very same (object, method) pair builds and installs a *second*
interceptor (function `2` replaces function `1` in the slot) — the method is
wrapped twice. -/
theorem C1_never_wrapped_twice_cex :
    (Trace.method (startWorld "") (mkReg (1, 2, 3) false)).map
        (fun p => installedSlot p.1 0 "") = some (some 1)
    ∧ (Trace.traceMany (startWorld "")
        [mkReg (1, 2, 3) false, mkReg (4, 5, 6) false]).map
        (fun p => installedSlot p.1 0 "") = some (some 2)
    ∧ (1 : Nat) ≠ 2 := by
  refine ⟨rfl, rfl, by decide⟩

/-- C2: a traced synchronous method (`isAsync` false) whose original returns
`v` publishes a finished record whose `returned` field is `v`, and the
wrapped call returns `v` to its caller unchanged. -/
theorem C2_sync_return_fidelity
    (w : World) (o : Nat) (s : String) (i oo m : Nat) (fp : FuncProps)
    (mt : IMethodMapping) (sem : Nat → Nat → List JsVal → JsOutcome)
    (args : List JsVal) (v : JsVal)
    (hslot : installedSlot w o s = some i)
    (hfp : lookupKey w.funcs i = some fp)
    (hkind : fp.kind = FuncKind.interceptor oo m false)
    (hmt : Trace.getMethodTrace w oo m = some mt)
    (hsem : sem mt.originalMethod oo args = JsOutcome.ok v) :
    ∃ w' evs,
      Trace.invokeTraced sem w o s args = some (w', evs, JsOutcome.ok v)
      ∧ Event.pubFinished ⟨w.clock, args, w.clock + 1, v⟩ ∈ evs
      ∧ (⟨w.clock, args, w.clock + 1, v⟩ : ITraceMethodFinished).returned
          = v := by
  cases hm : lookupKey w.funcs m with
  | none => simp [Trace.getMethodTrace, hm] at hmt
  | some mp =>
    have heq : Trace.invokeTraced sem w o s args =
        some (Trace.writeBack w oo mp.fname
            ⟨mt.originalMethod,
             (mt.callObservable.setValue (Trace.startRecord w args)).1,
             (mt.finishedObservable.setValue (Trace.finRecord w args v)).1,
             mt.errorObservable⟩ (w.clock + 2),
          Trace.callEvents mt (Trace.startRecord w args) ++
            [Event.invokeOriginal mt.originalMethod] ++
            Trace.finishedEvents mt (Trace.finRecord w args v) ++
            [Event.controlReturn],
          JsOutcome.ok v) := by
      simp only [Trace.invokeTraced, hslot, hfp, hkind, Trace.callMethod,
        hm, hmt, hsem]
    exact ⟨_, _, heq, by
      simp [Trace.callEvents, Trace.finishedEvents, Trace.finRecord], rfl⟩

/-- Witness for C2 at a concrete input: the spec's own example, a reduce-sum
over `[1, 2, 3]` yielding `6`. -/
theorem C2_sync_return_fidelity_witness :
    sumSem (mappingAfter [(1, 2, 3)]).originalMethod 0
        [JsVal.num 1, JsVal.num 2, JsVal.num 3]
      = JsOutcome.ok (JsVal.num 6)
    ∧ ∃ w' evs,
        Trace.invokeTraced sumSem (worldAfter "add" false [(1, 2, 3)]) 0 "add"
            [JsVal.num 1, JsVal.num 2, JsVal.num 3]
          = some (w', evs, JsOutcome.ok (JsVal.num 6))
        ∧ Event.pubFinished
            ⟨0, [JsVal.num 1, JsVal.num 2, JsVal.num 3], 1, JsVal.num 6⟩ ∈ evs
        ∧ (⟨0, [JsVal.num 1, JsVal.num 2, JsVal.num 3], 1, JsVal.num 6⟩ :
            ITraceMethodFinished).returned = JsVal.num 6 :=
  ⟨rfl, C2_sync_return_fidelity (worldAfter "add" false [(1, 2, 3)]) 0 "add" 1
    0 0 (interProps "add" false) (mappingAfter [(1, 2, 3)]) sumSem
    [JsVal.num 1, JsVal.num 2, JsVal.num 3] (JsVal.num 6) (by decide)
    (by decide) rfl (by decide) rfl⟩

/-- C4: a traced asynchronous method (`isAsync` true) whose pending result
fulfills with `v` publishes a finished record whose `returned` field is the
settled value `v`, and the interceptor's own returned pending result
fulfills with `v` as well. -/
theorem C4_async_return_fidelity
    (w : World) (o : Nat) (s : String) (i oo m : Nat) (fp : FuncProps)
    (mt : IMethodMapping) (sem : Nat → Nat → List JsVal → JsOutcome)
    (args : List JsVal) (v : JsVal)
    (hslot : installedSlot w o s = some i)
    (hfp : lookupKey w.funcs i = some fp)
    (hkind : fp.kind = FuncKind.interceptor oo m true)
    (hmt : Trace.getMethodTrace w oo m = some mt)
    (hsem : sem mt.originalMethod oo args = JsOutcome.ok v) :
    ∃ w' evs,
      Trace.invokeTraced sem w o s args = some (w', evs, JsOutcome.ok v)
      ∧ Event.pubFinished ⟨w.clock, args, w.clock + 1, v⟩ ∈ evs
      ∧ Event.settled ∈ evs
      ∧ (⟨w.clock, args, w.clock + 1, v⟩ : ITraceMethodFinished).returned
          = v := by
  cases hm : lookupKey w.funcs m with
  | none => simp [Trace.getMethodTrace, hm] at hmt
  | some mp =>
    have heq : Trace.invokeTraced sem w o s args =
        some (Trace.writeBack w oo mp.fname
            ⟨mt.originalMethod,
             (mt.callObservable.setValue (Trace.startRecord w args)).1,
             (mt.finishedObservable.setValue (Trace.finRecord w args v)).1,
             mt.errorObservable⟩ (w.clock + 2),
          Trace.callEvents mt (Trace.startRecord w args) ++
            [Event.invokeOriginal mt.originalMethod, Event.controlReturn] ++
            Trace.finishedEvents mt (Trace.finRecord w args v) ++
            [Event.settled],
          JsOutcome.ok v) := by
      simp only [Trace.invokeTraced, hslot, hfp, hkind, Trace.callMethodAsync,
        hm, hmt, hsem]
    exact ⟨_, _, heq, by
      simp [Trace.callEvents, Trace.finishedEvents, Trace.finRecord], by
      simp [Trace.callEvents, Trace.finishedEvents], rfl⟩

/-- Witness for C4 at a concrete input: async reduce-sum fulfilling `6`. -/
theorem C4_async_return_fidelity_witness :
    sumSem (mappingAfter [(1, 2, 3)]).originalMethod 0
        [JsVal.num 1, JsVal.num 2, JsVal.num 3]
      = JsOutcome.ok (JsVal.num 6)
    ∧ ∃ w' evs,
        Trace.invokeTraced sumSem (worldAfter "addAsync" true [(1, 2, 3)]) 0
            "addAsync" [JsVal.num 1, JsVal.num 2, JsVal.num 3]
          = some (w', evs, JsOutcome.ok (JsVal.num 6))
        ∧ Event.pubFinished
            ⟨0, [JsVal.num 1, JsVal.num 2, JsVal.num 3], 1, JsVal.num 6⟩ ∈ evs
        ∧ Event.settled ∈ evs
        ∧ (⟨0, [JsVal.num 1, JsVal.num 2, JsVal.num 3], 1, JsVal.num 6⟩ :
            ITraceMethodFinished).returned = JsVal.num 6 :=
  ⟨rfl, C4_async_return_fidelity (worldAfter "addAsync" true [(1, 2, 3)]) 0
    "addAsync" 1 0 0 (interProps "addAsync" true) (mappingAfter [(1, 2, 3)])
    sumSem [JsVal.num 1, JsVal.num 2, JsVal.num 3] (JsVal.num 6) (by decide)
    (by decide) rfl (by decide) rfl⟩

/-- C3: on either path, when the original method throws (sync) or its
pending result rejects (async) with `e`, an error record carrying exactly
`e` is published on the error store strictly before the call completes, and
the traced call's outcome towards its caller is the same thrown value `e`
(never swallowed). -/
theorem C3_error_published_then_rethrown
    (w : World) (o : Nat) (s : String) (i oo m : Nat) (bb : Bool)
    (fp : FuncProps) (mt : IMethodMapping)
    (sem : Nat → Nat → List JsVal → JsOutcome) (args : List JsVal)
    (e : JsVal)
    (hslot : installedSlot w o s = some i)
    (hfp : lookupKey w.funcs i = some fp)
    (hkind : fp.kind = FuncKind.interceptor oo m bb)
    (hmt : Trace.getMethodTrace w oo m = some mt)
    (hsem : sem mt.originalMethod oo args = JsOutcome.thrown e) :
    ∃ w' evs l1 l2 fin,
      Trace.invokeTraced sem w o s args = some (w', evs, JsOutcome.thrown e)
      ∧ evs = l1 ++ (Event.pubError ⟨w.clock, args, w.clock + 1, e⟩ :: l2)
            ++ [fin]
      ∧ (fin = Event.controlReturn ∨ fin = Event.settled)
      ∧ (⟨w.clock, args, w.clock + 1, e⟩ : ITraceMethodError).error = e := by
  cases hm : lookupKey w.funcs m with
  | none => simp [Trace.getMethodTrace, hm] at hmt
  | some mp =>
    cases bb with
    | false =>
      have heq : Trace.invokeTraced sem w o s args =
          some (Trace.writeBack w oo mp.fname
              ⟨mt.originalMethod,
               (mt.callObservable.setValue (Trace.startRecord w args)).1,
               mt.finishedObservable,
               (mt.errorObservable.setValue (Trace.errRecord w args e)).1⟩
              (w.clock + 2),
            Trace.callEvents mt (Trace.startRecord w args) ++
              [Event.invokeOriginal mt.originalMethod] ++
              Trace.errorEvents mt (Trace.errRecord w args e) ++
              [Event.controlReturn],
            JsOutcome.thrown e) := by
        simp only [Trace.invokeTraced, hslot, hfp, hkind, Trace.callMethod,
          hm, hmt, hsem]
      refine ⟨_, _,
        Trace.callEvents mt (Trace.startRecord w args) ++
          [Event.invokeOriginal mt.originalMethod],
        (mt.errorObservable.setValue (Trace.errRecord w args e)).2.map
          (fun c => Event.deliverError c (Trace.errRecord w args e)),
        Event.controlReturn, heq, ?_, Or.inl rfl, rfl⟩
      simp [Trace.errorEvents, Trace.errRecord]
    | true =>
      have heq : Trace.invokeTraced sem w o s args =
          some (Trace.writeBack w oo mp.fname
              ⟨mt.originalMethod,
               (mt.callObservable.setValue (Trace.startRecord w args)).1,
               mt.finishedObservable,
               (mt.errorObservable.setValue (Trace.errRecord w args e)).1⟩
              (w.clock + 2),
            Trace.callEvents mt (Trace.startRecord w args) ++
              [Event.invokeOriginal mt.originalMethod, Event.controlReturn] ++
              Trace.errorEvents mt (Trace.errRecord w args e) ++
              [Event.settled],
            JsOutcome.thrown e) := by
        simp only [Trace.invokeTraced, hslot, hfp, hkind,
          Trace.callMethodAsync, hm, hmt, hsem]
      refine ⟨_, _,
        Trace.callEvents mt (Trace.startRecord w args) ++
          [Event.invokeOriginal mt.originalMethod, Event.controlReturn],
        (mt.errorObservable.setValue (Trace.errRecord w args e)).2.map
          (fun c => Event.deliverError c (Trace.errRecord w args e)),
        Event.settled, heq, ?_, Or.inr rfl, rfl⟩
      simp [Trace.errorEvents, Trace.errRecord]

/-- Witness for C3 at a concrete input: a traced method throwing the string
`"message"` on the synchronous path. -/
theorem C3_error_published_then_rethrown_witness :
    throwSem (mappingAfter [(1, 2, 3)]).originalMethod 0 []
      = JsOutcome.thrown (JsVal.str "message")
    ∧ ∃ w' evs l1 l2 fin,
        Trace.invokeTraced throwSem (worldAfter "testError" false [(1, 2, 3)])
            0 "testError" []
          = some (w', evs, JsOutcome.thrown (JsVal.str "message"))
        ∧ evs = l1 ++ (Event.pubError ⟨0, [], 1, JsVal.str "message"⟩ :: l2)
              ++ [fin]
        ∧ (fin = Event.controlReturn ∨ fin = Event.settled)
        ∧ (⟨0, [], 1, JsVal.str "message"⟩ : ITraceMethodError).error
            = JsVal.str "message" :=
  ⟨rfl, C3_error_published_then_rethrown
    (worldAfter "testError" false [(1, 2, 3)]) 0 "testError" 1 0 0 false
    (interProps "testError" false) (mappingAfter [(1, 2, 3)]) throwSem []
    (JsVal.str "message") (by decide) (by decide) rfl (by decide) rfl⟩

/-- C5: after disposing the handle returned by the first of two
registrations, one more invocation delivers no event to the disposed
observer's callbacks, while the still-subscribed second observer receives
every triggered event (the whole delivery list of the invocation is exactly
the second observer's deliveries). -/
theorem C5_disposal_stops_delivery (s : String) (hs : s ≠ "")
    (t1 t2 : Nat × Nat × Nat) (sem : Nat → Nat → List JsVal → JsOutcome)
    (args : List JsVal) (v : JsVal)
    (hsem : sem 0 0 args = JsOutcome.ok v) :
    Trace.traceMany (startWorld s) [mkReg t1 false, mkReg t2 false]
      = some (worldAfter s false [t1, t2], [mkHandle s 0, mkHandle s 1])
    ∧ Trace.invokeTraced sem
        (Trace.disposeHandle (worldAfter s false [t1, t2]) (mkHandle s 0))
        0 s args
      = some
          (⟨[(0, origProps s), (1, interProps s false)], [(0, [(s, 1)])],
            [(0, ⟨[(s, ⟨0,
              ⟨some ⟨0, args⟩, [(1, t2.1)], 2⟩,
              ⟨some ⟨0, args, 1, v⟩, [(1, t2.2.1)], 2⟩,
              ⟨none, [(1, t2.2.2)], 2⟩⟩)]⟩)], 2, 2⟩,
           [Event.pubCall ⟨0, args⟩, Event.deliverCall t2.1 ⟨0, args⟩,
            Event.invokeOriginal 0, Event.pubFinished ⟨0, args, 1, v⟩,
            Event.deliverFinished t2.2.1 ⟨0, args, 1, v⟩,
            Event.controlReturn],
           JsOutcome.ok v) := by
  constructor
  · have h1 := trace_method_first s t1 false
    have h2 := traceMany_reuse s hs false false [t2] [t1]
    simp [Trace.traceMany, h1, regsOf, handlesFrom] at h2 ⊢
    simp [h2]
  · simp [Trace.disposeHandle, Trace.invokeTraced, Trace.callMethod,
      Trace.getMethodTrace, Trace.callEvents, Trace.finishedEvents,
      Trace.startRecord, Trace.finRecord, Trace.writeBack, installedSlot,
      worldAfter, origProps, interProps, mappingAfter, obsFrom, subsFrom,
      lookupKey, setKey, hsem, ObservableValue.setValue,
      ObservableValue.unsubscribe, mkHandle, List.filter]

/-- Witness for C5 at a concrete input: two observers, first one disposed,
only the second observer's callbacks (`20`, `21`) are delivered to. -/
theorem C5_disposal_stops_delivery_witness :
    ("addStatic" : String) ≠ ""
    ∧ sumSem 0 0 [] = JsOutcome.ok (JsVal.num 6)
    ∧ Trace.invokeTraced sumSem
        (Trace.disposeHandle (worldAfter "addStatic" false
          [(10, 11, 12), (20, 21, 22)]) (mkHandle "addStatic" 0))
        0 "addStatic" []
      = some
          (⟨[(0, origProps "addStatic"), (1, interProps "addStatic" false)],
            [(0, [("addStatic", 1)])],
            [(0, ⟨[("addStatic", ⟨0,
              ⟨some ⟨0, []⟩, [(1, 20)], 2⟩,
              ⟨some ⟨0, [], 1, JsVal.num 6⟩, [(1, 21)], 2⟩,
              ⟨none, [(1, 22)], 2⟩⟩)]⟩)], 2, 2⟩,
           [Event.pubCall ⟨0, []⟩, Event.deliverCall 20 ⟨0, []⟩,
            Event.invokeOriginal 0,
            Event.pubFinished ⟨0, [], 1, JsVal.num 6⟩,
            Event.deliverFinished 21 ⟨0, [], 1, JsVal.num 6⟩,
            Event.controlReturn],
           JsOutcome.ok (JsVal.num 6)) :=
  ⟨by decide, rfl,
   (C5_disposal_stops_delivery "addStatic" (by decide) (10, 11, 12)
     (20, 21, 22) sumSem [] (JsVal.num 6) rfl).2⟩

/-- The publication event of the settlement phase: a finished record on
fulfillment, an error record on rejection. -/
def settlePubEvent (w : World) (args : List JsVal) : JsOutcome → Event
  | JsOutcome.ok v => Event.pubFinished ⟨w.clock, args, w.clock + 1, v⟩
  | JsOutcome.thrown e => Event.pubError ⟨w.clock, args, w.clock + 1, e⟩

/-- The delivery events of the settlement phase, in subscription order. -/
def settleDeliverEvents (mt : IMethodMapping) (w : World)
    (args : List JsVal) : JsOutcome → List Event
  | JsOutcome.ok v =>
    (mt.finishedObservable.setValue (Trace.finRecord w args v)).2.map
      (fun c => Event.deliverFinished c (Trace.finRecord w args v))
  | JsOutcome.thrown e =>
    (mt.errorObservable.setValue (Trace.errRecord w args e)).2.map
      (fun c => Event.deliverError c (Trace.errRecord w args e))

/-- The world at the end of an interception, by outcome. -/
def postWorld (w : World) (oo : Nat) (mname : String) (mt : IMethodMapping)
    (args : List JsVal) : JsOutcome → World
  | JsOutcome.ok v =>
    Trace.writeBack w oo mname
      ⟨mt.originalMethod,
       (mt.callObservable.setValue (Trace.startRecord w args)).1,
       (mt.finishedObservable.setValue (Trace.finRecord w args v)).1,
       mt.errorObservable⟩ (w.clock + 2)
  | JsOutcome.thrown e =>
    Trace.writeBack w oo mname
      ⟨mt.originalMethod,
       (mt.callObservable.setValue (Trace.startRecord w args)).1,
       mt.finishedObservable,
       (mt.errorObservable.setValue (Trace.errRecord w args e)).1⟩
      (w.clock + 2)

theorem deliverCall_all (r : ITraceMethodCall) (l : List Nat) :
    ∀ ev ∈ l.map (fun c => Event.deliverCall c r),
      Event.isDeliverCall ev = true := by
  intro ev hev
  simp only [List.mem_map] at hev
  obtain ⟨c, _, rfl⟩ := hev
  rfl

theorem settleDeliver_all (mt : IMethodMapping) (w : World)
    (args : List JsVal) (out : JsOutcome) :
    ∀ ev ∈ settleDeliverEvents mt w args out,
      Event.isDeliverFinished ev = true ∨ Event.isDeliverError ev = true := by
  intro ev hev
  cases out with
  | ok v =>
    simp only [settleDeliverEvents, List.mem_map] at hev
    obtain ⟨c, _, rfl⟩ := hev
    exact Or.inl rfl
  | thrown e =>
    simp only [settleDeliverEvents, List.mem_map] at hev
    obtain ⟨c, _, rfl⟩ := hev
    exact Or.inr rfl

/-- C6, amended: within one call to a traced method the call record is
published (with its synchronous deliveries) strictly before the original
method is invoked, which is strictly before the finished/error record is
published; on the synchronous path every publication precedes the return of
control (`Event.controlReturn` is the final step of the trace), while on
the asynchronous path control returns to the caller right after the
original method is invoked and the finished/error publication happens only
afterwards, before the interceptor's own pending result settles. -/
theorem C6_ordering_amended
    (w : World) (o : Nat) (s : String) (i oo m : Nat) (bb : Bool)
    (fp mp : FuncProps) (mt : IMethodMapping)
    (sem : Nat → Nat → List JsVal → JsOutcome) (args : List JsVal)
    (hslot : installedSlot w o s = some i)
    (hfp : lookupKey w.funcs i = some fp)
    (hkind : fp.kind = FuncKind.interceptor oo m bb)
    (hm : lookupKey w.funcs m = some mp)
    (hmt : Trace.getMethodTrace w oo m = some mt) :
    Trace.invokeTraced sem w o s args =
      some (postWorld w oo mp.fname mt args (sem mt.originalMethod oo args),
        (Event.pubCall ⟨w.clock, args⟩ ::
          (mt.callObservable.setValue ⟨w.clock, args⟩).2.map
            (fun c => Event.deliverCall c ⟨w.clock, args⟩))
        ++ (if bb then
              [Event.invokeOriginal mt.originalMethod, Event.controlReturn]
            else [Event.invokeOriginal mt.originalMethod])
        ++ (settlePubEvent w args (sem mt.originalMethod oo args) ::
            settleDeliverEvents mt w args (sem mt.originalMethod oo args))
        ++ (if bb then [Event.settled] else [Event.controlReturn]),
        sem mt.originalMethod oo args)
    ∧ (∀ ev ∈ (mt.callObservable.setValue
          (⟨w.clock, args⟩ : ITraceMethodCall)).2.map
            (fun c => Event.deliverCall c ⟨w.clock, args⟩),
        Event.isDeliverCall ev = true)
    ∧ (∀ ev ∈ settleDeliverEvents mt w args (sem mt.originalMethod oo args),
        Event.isDeliverFinished ev = true
        ∨ Event.isDeliverError ev = true) := by
  refine ⟨?_, deliverCall_all _ _, settleDeliver_all _ _ _ _⟩
  cases bb with
  | false =>
    cases hout : sem mt.originalMethod oo args with
    | ok v =>
      simp only [Trace.invokeTraced, hslot, hfp, hkind, Trace.callMethod,
        hm, hmt, hout]
      simp [Trace.callEvents, Trace.finishedEvents, settlePubEvent,
        settleDeliverEvents, postWorld, Trace.startRecord, Trace.finRecord,
        hout]
    | thrown e =>
      simp only [Trace.invokeTraced, hslot, hfp, hkind, Trace.callMethod,
        hm, hmt, hout]
      simp [Trace.callEvents, Trace.errorEvents, settlePubEvent,
        settleDeliverEvents, postWorld, Trace.startRecord, Trace.errRecord,
        hout]
  | true =>
    cases hout : sem mt.originalMethod oo args with
    | ok v =>
      simp only [Trace.invokeTraced, hslot, hfp, hkind,
        Trace.callMethodAsync, hm, hmt, hout]
      simp [Trace.callEvents, Trace.finishedEvents, settlePubEvent,
        settleDeliverEvents, postWorld, Trace.startRecord, Trace.finRecord,
        hout]
    | thrown e =>
      simp only [Trace.invokeTraced, hslot, hfp, hkind,
        Trace.callMethodAsync, hm, hmt, hout]
      simp [Trace.callEvents, Trace.errorEvents, settlePubEvent,
        settleDeliverEvents, postWorld, Trace.startRecord, Trace.errRecord,
        hout]

/-- Witness for C6 at a concrete input (synchronous path): the ordered trace
of one invocation. -/
theorem C6_ordering_amended_witness :
    Trace.invokeTraced sumSem (worldAfter "m1" false [(1, 2, 3)]) 0 "m1" []
      = some (postWorld (worldAfter "m1" false [(1, 2, 3)]) 0 "m1"
            (mappingAfter [(1, 2, 3)]) [] (JsOutcome.ok (JsVal.num 6)),
          [Event.pubCall ⟨0, []⟩, Event.deliverCall 1 ⟨0, []⟩,
           Event.invokeOriginal 0,
           settlePubEvent (worldAfter "m1" false [(1, 2, 3)]) []
             (JsOutcome.ok (JsVal.num 6)),
           Event.deliverFinished 2 ⟨0, [], 1, JsVal.num 6⟩,
           Event.controlReturn],
          JsOutcome.ok (JsVal.num 6)) :=
  (C6_ordering_amended (worldAfter "m1" false [(1, 2, 3)]) 0 "m1" 1 0 0 false
    (interProps "m1" false) (origProps "m1") (mappingAfter [(1, 2, 3)])
    sumSem [] (by decide) (by decide) rfl (by decide) (by decide)).1

/-- Counterexample to C6 as stated: on the asynchronous path the finished
record is published only *after* control has returned to the caller of the
wrapped method (the interceptor's pending result is handed back at the
`await`), so "all event publication for a call happens before control
returns to the caller" fails: in the concrete trace below,
`Event.controlReturn` is at index 3 and the finished-record publication at
index 4. -/
theorem C6_publication_after_return_cex :
    Trace.invokeTraced sumSem (worldAfter "asyncM" true [(1, 2, 3)]) 0
        "asyncM" []
      = some (worldInvokedOk "asyncM" true [(1, 2, 3)] [] (JsVal.num 6),
          [Event.pubCall ⟨0, []⟩, Event.deliverCall 1 ⟨0, []⟩,
           Event.invokeOriginal 0, Event.controlReturn,
           Event.pubFinished ⟨0, [], 1, JsVal.num 6⟩,
           Event.deliverFinished 2 ⟨0, [], 1, JsVal.num 6⟩, Event.settled],
          JsOutcome.ok (JsVal.num 6))
    ∧ List.indexOf Event.controlReturn
        [Event.pubCall ⟨0, []⟩, Event.deliverCall 1 ⟨0, []⟩,
         Event.invokeOriginal 0, Event.controlReturn,
         Event.pubFinished ⟨0, [], 1, JsVal.num 6⟩,
         Event.deliverFinished 2 ⟨0, [], 1, JsVal.num 6⟩, Event.settled]
      < List.indexOf (Event.pubFinished ⟨0, [], 1, JsVal.num 6⟩)
        [Event.pubCall ⟨0, []⟩, Event.deliverCall 1 ⟨0, []⟩,
         Event.invokeOriginal 0, Event.controlReturn,
         Event.pubFinished ⟨0, [], 1, JsVal.num 6⟩,
         Event.deliverFinished 2 ⟨0, [], 1, JsVal.num 6⟩, Event.settled] := by
  refine ⟨by decide, by decide⟩

theorem lookupKey_setKey_self {κ α : Type} [DecidableEq κ]
    (l : List (κ × α)) (k : κ) (v : α) :
    lookupKey (setKey l k v) k = some v := by
  induction l with
  | nil => simp [setKey, lookupKey]
  | cons p l ih =>
    obtain ⟨a, b⟩ := p
    by_cases h : a = k <;> simp [setKey, lookupKey, h, ih]

theorem lookupKey_setKey_ne {κ α : Type} [DecidableEq κ]
    (l : List (κ × α)) (k k' : κ) (v : α) (h : k' ≠ k) :
    lookupKey (setKey l k v) k' = lookupKey l k' := by
  induction l with
  | nil => simp [setKey, lookupKey, Ne.symm h]
  | cons p l ih =>
    obtain ⟨a, b⟩ := p
    by_cases hak : a = k <;> simp [setKey, lookupKey, hak, Ne.symm h, ih]

/-- `true` when the tracer registry holds no method mapping for the pair
(`o`, `s`) yet (either no registry entry for the object, or one without a
mapping for that name). -/
def mappingAbsent (w : World) (o : Nat) (s : String) : Bool :=
  match lookupKey w.objectTraces o with
  | none => true
  | some ot => (lookupKey ot.methodMappings s).isNone

theorem eot_none (w : World) (o : Nat)
    (h : lookupKey w.objectTraces o = none) :
    Trace.ensureObjectTrace w o =
      ⟨w.funcs, w.objects, setKey w.objectTraces o ⟨[]⟩, w.nextFunId,
       w.clock⟩ := by
  simp [Trace.ensureObjectTrace, h]

theorem eot_some (w : World) (o : Nat) (ot : IObjectTrace)
    (h : lookupKey w.objectTraces o = some ot) :
    Trace.ensureObjectTrace w o = w := by
  simp [Trace.ensureObjectTrace, h]

/-- After `ensureObjectTrace`, the object has a registry entry whose
mappings still lack `s` whenever they did before (or the entry is brand
new and empty). -/
theorem eot_ready (w : World) (o : Nat) (s : String)
    (habsent : mappingAbsent w o s = true) :
    ∃ W1 ot1, Trace.ensureObjectTrace w o = W1
      ∧ W1.funcs = w.funcs ∧ W1.objects = w.objects ∧ W1.clock = w.clock
      ∧ lookupKey W1.objectTraces o = some ot1
      ∧ lookupKey ot1.methodMappings s = none := by
  cases htr : lookupKey w.objectTraces o with
  | none =>
    exact ⟨_, ⟨[]⟩, eot_none w o htr, rfl, rfl, rfl,
      lookupKey_setKey_self _ _ _, rfl⟩
  | some ot =>
    refine ⟨w, ot, eot_some w o ot htr, rfl, rfl, rfl, htr, ?_⟩
    simpa [mappingAbsent, htr, Option.isNone_iff_eq_none] using habsent

/-- `ensureWrapped` succeeds whenever the slot and its function exist, and
it never touches the registry or the clock. -/
theorem ew_some (w : World) (opts : ITraceMethodOptions) (s : String)
    (props : List (String × Nat)) (g : Nat) (gp : FuncProps)
    (hobj : lookupKey w.objects opts.object = some props)
    (hslot : lookupKey props s = some g)
    (hg : lookupKey w.funcs g = some gp) :
    ∃ w2, Trace.ensureWrapped w opts s = some w2
      ∧ w2.objectTraces = w.objectTraces ∧ w2.clock = w.clock := by
  cases hmk : markerTruthy gp.isTraced with
  | false =>
    refine ⟨⟨setKey w.funcs w.nextFunId
        ⟨s, some (JsVal.str s),
         FuncKind.interceptor opts.object opts.method opts.isAsync⟩,
      setKey w.objects opts.object (setKey props s w.nextFunId),
      w.objectTraces, w.nextFunId + 1, w.clock⟩, ?_, rfl, rfl⟩
    simp [Trace.ensureWrapped, hobj, hslot, hg, hmk]
  | true =>
    exact ⟨w, by simp [Trace.ensureWrapped, hobj, hslot, hg, hmk], rfl, rfl⟩

theorem em_absent (w : World) (opts : ITraceMethodOptions) (s : String)
    (ot : IObjectTrace)
    (h1 : lookupKey w.objectTraces opts.object = some ot)
    (h2 : lookupKey ot.methodMappings s = none) :
    Trace.ensureMapping w opts s =
      ⟨w.funcs, w.objects,
       setKey w.objectTraces opts.object
         ⟨setKey ot.methodMappings s
           ⟨opts.method, ObservableValue.empty, ObservableValue.empty,
            ObservableValue.empty⟩⟩,
       w.nextFunId, w.clock⟩ := by
  simp [Trace.ensureMapping, h1, h2]

theorem sc_eq (w : World) (opts : ITraceMethodOptions) (s : String)
    (ot : IObjectTrace) (mt : IMethodMapping)
    (h1 : lookupKey w.objectTraces opts.object = some ot)
    (h2 : lookupKey ot.methodMappings s = some mt) :
    Trace.subscribeCallbacks w opts s =
      some (⟨w.funcs, w.objects,
        setKey w.objectTraces opts.object
          ⟨setKey ot.methodMappings s
            ⟨mt.originalMethod,
             (Trace.subscribeOpt mt.callObservable opts.onCalled).1,
             (Trace.subscribeOpt mt.finishedObservable opts.onFinished).1,
             (Trace.subscribeOpt mt.errorObservable opts.onError).1⟩⟩,
        w.nextFunId, w.clock⟩,
       ⟨opts.object, s,
        (Trace.subscribeOpt mt.callObservable opts.onCalled).2,
        (Trace.subscribeOpt mt.finishedObservable opts.onFinished).2,
        (Trace.subscribeOpt mt.errorObservable opts.onError).2⟩) := by
  simp [Trace.subscribeCallbacks, h1, h2]

theorem method_unfold (w : World) (opts : ITraceMethodOptions)
    (mp : FuncProps) (hmethod : lookupKey w.funcs opts.method = some mp) :
    Trace.method w opts =
      match Trace.ensureWrapped (Trace.ensureObjectTrace w opts.object) opts
          mp.fname with
      | none => none
      | some w2 =>
        Trace.subscribeCallbacks (Trace.ensureMapping w2 opts mp.fname) opts
          mp.fname := by
  simp only [Trace.method, hmethod]

/-- C7, amended: when `Trace.method` creates a Method Mapping for a pair
that has none yet, the `originalMethod` it stores is the method *reference
passed by the caller* (`options.method`), together with three fresh
Observable Value Stores (value unset, carrying exactly this call's
subscriptions).  It is not the method installed on the object at
mapping-creation time: by then the slot already holds the interceptor, and
when the caller's name precondition is violated the passed reference need
not even be the method that was installed before wrapping. -/
theorem C7_mapping_captures_passed_method_amended
    (w : World) (opts : ITraceMethodOptions) (s : String) (mp : FuncProps)
    (props : List (String × Nat)) (g : Nat) (gp : FuncProps)
    (hmethod : lookupKey w.funcs opts.method = some mp)
    (hname : mp.fname = s)
    (habsent : mappingAbsent w opts.object s = true)
    (hobj : lookupKey w.objects opts.object = some props)
    (hslot : lookupKey props s = some g)
    (hg : lookupKey w.funcs g = some gp) :
    (Trace.method w opts).isSome = true
    ∧ ∀ w' h, Trace.method w opts = some (w', h) →
        ∃ ot', lookupKey w'.objectTraces opts.object = some ot'
          ∧ lookupKey ot'.methodMappings s
              = some ⟨opts.method,
                  (Trace.subscribeOpt ObservableValue.empty opts.onCalled).1,
                  (Trace.subscribeOpt ObservableValue.empty
                    opts.onFinished).1,
                  (Trace.subscribeOpt ObservableValue.empty opts.onError).1⟩
    := by
  obtain ⟨W1, ot1, e1, ef1, eo1, ec1, etr1, ems1⟩ :=
    eot_ready w opts.object s habsent
  obtain ⟨W2, e2, etr2, ec2⟩ := ew_some W1 opts s props g gp
    (by rw [eo1]; exact hobj) hslot (by rw [ef1]; exact hg)
  have e3 := em_absent W2 opts s ot1 (by rw [etr2]; exact etr1) ems1
  have e4 := sc_eq
    (⟨W2.funcs, W2.objects,
      setKey W2.objectTraces opts.object
        ⟨setKey ot1.methodMappings s
          ⟨opts.method, ObservableValue.empty, ObservableValue.empty,
           ObservableValue.empty⟩⟩,
      W2.nextFunId, W2.clock⟩ : World) opts s
    ⟨setKey ot1.methodMappings s
      ⟨opts.method, ObservableValue.empty, ObservableValue.empty,
       ObservableValue.empty⟩⟩
    ⟨opts.method, ObservableValue.empty, ObservableValue.empty,
     ObservableValue.empty⟩
    (lookupKey_setKey_self _ _ _) (lookupKey_setKey_self _ _ _)
  have e5 : Trace.method w opts =
      Trace.subscribeCallbacks (Trace.ensureMapping W2 opts s) opts s := by
    rw [method_unfold w opts mp hmethod, hname, e1, e2]
  rw [e3, e4] at e5
  constructor
  · rw [e5]; rfl
  · intro w' h hw
    rw [e5] at hw
    simp only [Option.some.injEq, Prod.mk.injEq] at hw
    obtain ⟨hw1, hw2⟩ := hw
    subst hw1
    exact ⟨_, lookupKey_setKey_self _ _ _, lookupKey_setKey_self _ _ _⟩

/-- Witness for C7 at a concrete input: first registration on a fresh
object. -/
theorem C7_mapping_captures_passed_method_amended_witness :
    (Trace.method (startWorld "m") (mkReg (1, 2, 3) false)).isSome = true
    ∧ ∀ w' h,
        Trace.method (startWorld "m") (mkReg (1, 2, 3) false) = some (w', h) →
        ∃ ot', lookupKey w'.objectTraces 0 = some ot'
          ∧ lookupKey ot'.methodMappings "m"
              = some ⟨0,
                  (Trace.subscribeOpt ObservableValue.empty (some 1)).1,
                  (Trace.subscribeOpt ObservableValue.empty (some 2)).1,
                  (Trace.subscribeOpt ObservableValue.empty (some 3)).1⟩ :=
  C7_mapping_captures_passed_method_amended (startWorld "m")
    (mkReg (1, 2, 3) false) "m" (origProps "m") [("m", 0)] 0 (origProps "m")
    (by decide) rfl (by decide) (by decide) (by decide) (by decide)

/-- A second, distinct original method named `"m"` (function `5`). -/
def gProps : FuncProps := ⟨"m", none, FuncKind.original 1⟩

/-- A world where object `9` holds method `5` in its `"m"` slot, while the
caller will pass the different reference `0` (also named `"m"`). -/
def cexW7 : World :=
  ⟨[(0, origProps "m"), (5, gProps)], [(9, [("m", 5)])], [], 6, 0⟩

/-- The registration passing reference `0` for object `9`. -/
def cexOpts7 : ITraceMethodOptions := ⟨9, 0, some 1, some 2, some 3, false⟩

/-- Counterexample to C7 as stated: after the call that created the
mapping, the mapping's `originalMethod` is `0` — the reference the caller
passed — while the method installed on the object under that name at
mapping-creation time is the freshly installed interceptor `6` (the
interceptor is installed *before* the mapping is created and the slot is
not touched afterwards during the call), and the method that had been
installed before wrapping was yet another function, `5`. -/
theorem C7_stored_method_cex :
    (Trace.method cexW7 cexOpts7).map (fun p =>
        (installedSlot p.1 9 "m",
         (Trace.getMethodTrace p.1 9 0).map (fun mt => mt.originalMethod)))
      = some (some 6, some 0)
    ∧ (0 : Nat) ≠ 6 ∧ (0 : Nat) ≠ 5 :=
  ⟨rfl, by decide, by decide⟩

/-- Disposal touches only the registry's listener lists: the object heap and
the function heap are untouched. -/
theorem dispose_preserves (w : World) (h : TraceObserverHandle) :
    (Trace.disposeHandle w h).objects = w.objects
    ∧ (Trace.disposeHandle w h).funcs = w.funcs := by
  cases h1 : lookupKey w.objectTraces h.hobject with
  | none => simp [Trace.disposeHandle, h1]
  | some ot =>
    cases h2 : lookupKey ot.methodMappings h.hname with
    | none => simp [Trace.disposeHandle, h1, h2]
    | some mt => simp [Trace.disposeHandle, h1, h2]

theorem eot_objects (w : World) (o : Nat) :
    (Trace.ensureObjectTrace w o).objects = w.objects := by
  by_cases h : (lookupKey w.objectTraces o).isSome <;>
    simp [Trace.ensureObjectTrace, h]

theorem em_objects (w : World) (opts : ITraceMethodOptions) (s : String) :
    (Trace.ensureMapping w opts s).objects = w.objects := by
  cases h : lookupKey w.objectTraces opts.object with
  | none => simp [Trace.ensureMapping, h]
  | some ot =>
    by_cases h2 : (lookupKey ot.methodMappings s).isSome <;>
      simp [Trace.ensureMapping, h, h2]

theorem sc_objects (w : World) (opts : ITraceMethodOptions) (s : String)
    (w' : World) (h' : TraceObserverHandle)
    (hsc : Trace.subscribeCallbacks w opts s = some (w', h')) :
    w'.objects = w.objects := by
  cases h1 : lookupKey w.objectTraces opts.object with
  | none => simp [Trace.subscribeCallbacks, h1] at hsc
  | some ot =>
    cases h2 : lookupKey ot.methodMappings s with
    | none => simp [Trace.subscribeCallbacks, h1, h2] at hsc
    | some mt =>
      simp only [Trace.subscribeCallbacks, h1, h2, Option.some.injEq,
        Prod.mk.injEq] at hsc
      obtain ⟨hw, _⟩ := hsc
      subst hw
      rfl

/-- The interceptor installation changes no slot other than the one it
replaces. -/
theorem ew_slots (w : World) (opts : ITraceMethodOptions) (s : String)
    (w2 : World) (hew : Trace.ensureWrapped w opts s = some w2) :
    ∀ o' k, o' ≠ opts.object ∨ k ≠ s →
      installedSlot w2 o' k = installedSlot w o' k := by
  cases h1 : lookupKey w.objects opts.object with
  | none => simp [Trace.ensureWrapped, h1] at hew
  | some props =>
    cases h2 : lookupKey props s with
    | none => simp [Trace.ensureWrapped, h1, h2] at hew
    | some g =>
      cases h3 : lookupKey w.funcs g with
      | none => simp [Trace.ensureWrapped, h1, h2, h3] at hew
      | some gp =>
        cases hmk : markerTruthy gp.isTraced with
        | true =>
          simp only [Trace.ensureWrapped, h1, h2, h3, hmk, if_true,
            Option.some.injEq] at hew
          subst hew
          intro o' k _
          rfl
        | false =>
          simp only [Trace.ensureWrapped, h1, h2, h3, hmk,
            Bool.false_eq_true, if_false, Option.some.injEq] at hew
          subst hew
          intro o' k hok
          rcases hok with hne | hne
          · simp [installedSlot, lookupKey_setKey_ne _ _ _ _ hne]
          · by_cases ho : o' = opts.object
            · subst ho
              simp [installedSlot, lookupKey_setKey_self, h1,
                lookupKey_setKey_ne _ _ _ _ hne]
            · simp [installedSlot, lookupKey_setKey_ne _ _ _ _ ho]

/-- `Trace.method` changes no slot of any object other than the traced
method's own slot. -/
theorem method_frame (w : World) (opts : ITraceMethodOptions)
    (mp : FuncProps) (w' : World) (h : TraceObserverHandle)
    (hmethod : lookupKey w.funcs opts.method = some mp)
    (hw : Trace.method w opts = some (w', h)) :
    ∀ o' k, o' ≠ opts.object ∨ k ≠ mp.fname →
      installedSlot w' o' k = installedSlot w o' k := by
  rw [method_unfold w opts mp hmethod] at hw
  cases hew : Trace.ensureWrapped (Trace.ensureObjectTrace w opts.object)
      opts mp.fname with
  | none => rw [hew] at hw; exact absurd hw (by simp)
  | some w2 =>
    rw [hew] at hw
    intro o' k hok
    have e1 : installedSlot w' o' k =
        installedSlot (Trace.ensureMapping w2 opts mp.fname) o' k := by
      simp [installedSlot, sc_objects _ _ _ _ _ hw]
    have e2 : installedSlot (Trace.ensureMapping w2 opts mp.fname) o' k =
        installedSlot w2 o' k := by
      simp [installedSlot, em_objects w2 opts mp.fname]
    have e3 := ew_slots (Trace.ensureObjectTrace w opts.object) opts
      mp.fname w2 hew o' k hok
    have e4 : installedSlot (Trace.ensureObjectTrace w opts.object) o' k =
        installedSlot w o' k := by
      simp [installedSlot, eot_objects w opts.object]
    rw [e1, e2, e3, e4]

/-- C8: disposing a Trace Observer Handle does not restore the original
method (disposal leaves every object and every function untouched, so the
slot still holds the interceptor), and `Trace.method` modifies no property
of any object other than the single method slot it replaces. -/
theorem C8_dispose_no_restore_frame :
    (∀ w h, (Trace.disposeHandle w h).objects = w.objects
      ∧ (Trace.disposeHandle w h).funcs = w.funcs)
    ∧ (∀ w opts mp w' h,
        lookupKey w.funcs opts.method = some mp →
        Trace.method w opts = some (w', h) →
        ∀ o' k, o' ≠ opts.object ∨ k ≠ mp.fname →
          installedSlot w' o' k = installedSlot w o' k)
    ∧ (∀ s b ts h, installedSlot
        (Trace.disposeHandle (worldAfter s b ts) h) 0 s = some 1) := by
  refine ⟨dispose_preserves, ?_, ?_⟩
  · intro w opts mp w' h hmethod hw
    exact method_frame w opts mp w' h hmethod hw
  · intro s b ts h
    have hp := (dispose_preserves (worldAfter s b ts) h).1
    simp only [installedSlot, hp]
    simp [worldAfter, lookupKey]

/-- Witness for C8 at concrete inputs: disposal leaves the object heap of
the traced world unchanged and the slot still holds interceptor `1`; a
fresh registration does not change an unrelated slot. -/
theorem C8_dispose_no_restore_frame_witness :
    (Trace.disposeHandle (worldAfter "m8" false [(1, 2, 3)])
        (mkHandle "m8" 0)).objects
      = (worldAfter "m8" false [(1, 2, 3)]).objects
    ∧ installedSlot (worldAfter "m8" false [(1, 2, 3)]) 1 "x"
        = installedSlot (startWorld "m8") 1 "x"
    ∧ installedSlot (Trace.disposeHandle (worldAfter "m8" false [(1, 2, 3)])
        (mkHandle "m8" 0)) 0 "m8" = some 1 := by
  have h := C8_dispose_no_restore_frame
  exact ⟨(h.1 _ _).1,
    h.2.1 (startWorld "m8") (mkReg (1, 2, 3) false) (origProps "m8")
      (worldAfter "m8" false [(1, 2, 3)]) (mkHandle "m8" 0) (by decide)
      (by decide) 1 "x" (Or.inl (by decide)),
    h.2.2 "m8" false [(1, 2, 3)] (mkHandle "m8" 0)⟩

/-- C9, amended to nonempty method names: the installed interceptor's
`name` equals the original method's name and its `isTraced` marker (the
name string) is truthy, so a later `Trace.method` call that passes the
now-installed wrapped reference (function `1`) resolves the same mapping by
name and does not wrap again.  (For the empty name the marker is the empty
string, which is falsy — see the counterexample.) -/
theorem C9_marker_and_reuse_amended (s : String) (hs : s ≠ "")
    (b b' : Bool) (t' : Nat × Nat × Nat) (ts : List (Nat × Nat × Nat)) :
    lookupKey (worldAfter s b ts).funcs 1 = some (interProps s b)
    ∧ (interProps s b).fname = (origProps s).fname
    ∧ markerTruthy (interProps s b).isTraced = true
    ∧ installedSlot (worldAfter s b ts) 0 s = some 1
    ∧ Trace.method (worldAfter s b ts) (mkRegM 1 t' b')
        = some (worldAfter s b (ts ++ [t']), mkHandle s ts.length) := by
  refine ⟨by simp [worldAfter, lookupKey], rfl,
    by simp [interProps, markerTruthy, jsTruthy, hs],
    by simp [installedSlot, worldAfter, lookupKey], ?_⟩
  exact trace_method_reuse s hs b b' ts 1 (interProps s b)
    (by simp [worldAfter, lookupKey]) rfl t'

/-- Witness for C9 at a concrete input. -/
theorem C9_marker_and_reuse_amended_witness :
    lookupKey (worldAfter "m9" false [(1, 2, 3)]).funcs 1
      = some (interProps "m9" false)
    ∧ (interProps "m9" false).fname = (origProps "m9").fname
    ∧ markerTruthy (interProps "m9" false).isTraced = true
    ∧ installedSlot (worldAfter "m9" false [(1, 2, 3)]) 0 "m9" = some 1
    ∧ Trace.method (worldAfter "m9" false [(1, 2, 3)])
        (mkRegM 1 (4, 5, 6) false)
      = some (worldAfter "m9" false [(1, 2, 3), (4, 5, 6)],
          mkHandle "m9" 1) :=
  C9_marker_and_reuse_amended "m9" (by decide) false false (4, 5, 6)
    [(1, 2, 3)]

/-- Counterexample to C9 as stated: for a method whose name is the empty
string the interceptor's `isTraced` marker is the empty string — falsy —
and a later `Trace.method` call that passes the installed wrapped reference
(function `1`) wraps *again*: a fresh interceptor `2` is created (consuming
function identifier `2`, so `nextFunId` becomes `3`) and installed in the
slot. -/
theorem C9_marker_falsy_cex :
    Trace.method (startWorld "") (mkReg (1, 2, 3) false)
      = some (worldAfter "" false [(1, 2, 3)], mkHandle "" 0)
    ∧ markerTruthy (interProps "" false).isTraced = false
    ∧ (Trace.method (worldAfter "" false [(1, 2, 3)])
        (mkRegM 1 (4, 5, 6) false)).map
          (fun p => (installedSlot p.1 0 "", p.1.nextFunId))
      = some (some 2, 3) :=
  ⟨trace_method_first "" (1, 2, 3) false, rfl, rfl⟩

/-- C10, amended to nonempty method names: a later `Trace.method` call on
an already-traced pair produces the same result whatever `isAsync` value it
supplies, and the installed interceptor keeps the `isAsync` flag of the
first registration, which alone fixes whether calls are awaited. -/
theorem C10_isAsync_fixed_by_first_amended (s : String) (hs : s ≠ "")
    (b b1 b2 : Bool) (t : Nat × Nat × Nat) (ts : List (Nat × Nat × Nat)) :
    Trace.method (worldAfter s b ts) (mkReg t b1)
      = Trace.method (worldAfter s b ts) (mkReg t b2)
    ∧ Trace.method (worldAfter s b ts) (mkReg t b1)
      = some (worldAfter s b (ts ++ [t]), mkHandle s ts.length)
    ∧ (lookupKey (worldAfter s b (ts ++ [t])).funcs 1).map
        (fun fp => fp.kind)
      = some (FuncKind.interceptor 0 0 b) := by
  have h1 := trace_method_reuse s hs b b1 ts 0 (origProps s)
    (lookup_worldAfter_funcs_zero s b ts) rfl t
  have h2 := trace_method_reuse s hs b b2 ts 0 (origProps s)
    (lookup_worldAfter_funcs_zero s b ts) rfl t
  exact ⟨h1.trans h2.symm, h1, by simp [worldAfter, lookupKey, interProps]⟩

/-- Witness for C10 at a concrete input: a second registration supplying
`isAsync` `false` or `true` produces identical results; the live
interceptor keeps the first registration's flag (`false`). -/
theorem C10_isAsync_fixed_by_first_amended_witness :
    Trace.method (worldAfter "m10" false [(1, 2, 3)]) (mkReg (4, 5, 6) false)
      = Trace.method (worldAfter "m10" false [(1, 2, 3)])
          (mkReg (4, 5, 6) true)
    ∧ Trace.method (worldAfter "m10" false [(1, 2, 3)])
        (mkReg (4, 5, 6) false)
      = some (worldAfter "m10" false [(1, 2, 3), (4, 5, 6)],
          mkHandle "m10" 1)
    ∧ (lookupKey (worldAfter "m10" false [(1, 2, 3), (4, 5, 6)]).funcs 1).map
        (fun fp => fp.kind)
      = some (FuncKind.interceptor 0 0 false) :=
  C10_isAsync_fixed_by_first_amended "m10" (by decide) false false true
    (4, 5, 6) [(1, 2, 3)]

/-- Counterexample to C10 as stated: for the empty method name the marker is
falsy, so a *later* registration re-wraps using *its own* `isAsync` value —
the flag supplied by the second call determines the interceptor that ends up
installed (function `2`, which the slot now holds), `true` in the first run
and `false` in the second, so a later call's `isAsync` does affect
behavior. -/
theorem C10_isAsync_later_effect_cex :
    (Trace.traceMany (startWorld "")
        [mkReg (1, 2, 3) false, mkReg (4, 5, 6) true]).map
        (fun p => (installedSlot p.1 0 "",
          (lookupKey p.1.funcs 2).map (fun fp => fp.kind)))
      = some (some 2, some (FuncKind.interceptor 0 0 true))
    ∧ (Trace.traceMany (startWorld "")
        [mkReg (1, 2, 3) false, mkReg (4, 5, 6) false]).map
        (fun p => (installedSlot p.1 0 "",
          (lookupKey p.1.funcs 2).map (fun fp => fp.kind)))
      = some (some 2, some (FuncKind.interceptor 0 0 false))
    ∧ FuncKind.interceptor 0 0 true ≠ FuncKind.interceptor 0 0 false :=
  ⟨rfl, rfl, by decide⟩
